import Mathlib

/-!
Go language snippets: value copies, aliases, pointers and loops.

A shallow embedding of the demonstration programs of the repository.

* Go's `int` is a 64-bit two's-complement integer and `int32` a 32-bit one; both are
  carried as `Int` and every arithmetic result is wrapped explicitly.
* A fixed-size array `[n]int` is a list of exactly `n` elements. Indexing with a
  run-time index is bounds checked and panics outside `0 .. n-1`.
* A Go variable that is copied, aliased or passed along is a storage cell of a typed
  memory. `&x` is the address of the cell of `x`, `*p` loads from the cell at address
  `p`. A variable that is only used inside one function body is passed as explicit state.
* A loop is a recursive function with an iteration budget (`fuel`); a run that exhausts
  the budget stops with `Abort.outOfFuel`, which is kept apart from Go's panics.
* `fmt.Printf`/`fmt.Println` calls are recorded as the list of values they print
  (addresses are printed by the programs too, they are recorded as cell numbers
  where a program's observable behaviour depends on them and left out otherwise).
-/

namespace GoLang

/-! ## Machine integers -/

/-- Wrap a mathematical integer to Go's 64-bit `int`. -/
def wrapInt (z : Int) : Int := (z + 2 ^ 63) % 2 ^ 64 - 2 ^ 63

/-- Wrap a mathematical integer to Go's `int32`. -/
def wrapInt32 (z : Int) : Int := (z + 2 ^ 31) % 2 ^ 32 - 2 ^ 31

/-- The values an `int` variable can hold. -/
def IsInt (z : Int) : Prop := -(2 ^ 63) ≤ z ∧ z < 2 ^ 63

/-- The values an `int32` variable can hold. -/
def IsInt32 (z : Int) : Prop := -(2 ^ 31) ≤ z ∧ z < 2 ^ 31

instance (z : Int) : Decidable (IsInt z) := by unfold IsInt; infer_instance

instance (z : Int) : Decidable (IsInt32 z) := by unfold IsInt32; infer_instance

/-! ## Runs that stop without a result -/

/-- Why a run stops without a result. The first two are Go run-time panics
("index out of range [index] with length len" and "invalid memory address or nil
pointer dereference"). The third is not a Go behaviour: it says that a loop of the
model was given a smaller iteration budget than the loop needs. -/
inductive Abort where
  | indexOutOfRange (index : Int) (len : Nat)
  | invalidAddress (addr : Nat)
  | outOfFuel
  deriving DecidableEq, Repr

/-! ## Fixed-size arrays -/

/-- A Go array `[n]T` with integer elements: exactly `n` elements. -/
structure GoArray (n : Nat) where
  elems : List Int
  size_eq : elems.length = n
  deriving DecidableEq, Repr

namespace GoArray

/-- The composite literal `[n]int{x0, x1, ...}`: the listed elements, then zeros. -/
def lit (n : Nat) (xs : List Int) : GoArray n :=
  ⟨(xs ++ List.replicate (n - xs.length) 0).take n, by
    simp only [List.length_take, List.length_append, List.length_replicate]; omega⟩

/-- The element at a position known to be in range (zero otherwise). -/
def elem (a : GoArray n) (j : Nat) : Int := a.elems.getD j 0

/-- The index expression `a[k]` with a run-time index. -/
def index (a : GoArray n) (k : Int) : Except Abort Int :=
  if 0 ≤ k ∧ k < (n : Int) then .ok (a.elem k.toNat) else .error (.indexOutOfRange k n)

/-- The assignment `a[k] = v` with a run-time index, giving the new array value. -/
def assign (a : GoArray n) (k : Int) (v : Int) : Except Abort (GoArray n) :=
  if 0 ≤ k ∧ k < (n : Int) then
    .ok ⟨a.elems.set k.toNat v, by simp [a.size_eq]⟩
  else .error (.indexOutOfRange k n)

/-- The comparison loop behind `a == b`: elements are compared position by position,
the first difference makes the arrays unequal. -/
def eqFrom : List Int → List Int → Bool
  | [], [] => true
  | x :: xs, y :: ys => if x ≠ y then false else eqFrom xs ys
  | _, _ => false

/-- The comparison `a == b` of two arrays of the same type. -/
def eq (a b : GoArray n) : Bool := eqFrom a.elems b.elems

end GoArray

/-! ## Typed memory -/

/-- A memory of cells holding values of type `α`; an address is a cell number. -/
structure Mem (α : Type) where
  cells : List α
  deriving DecidableEq, Repr

/-- An address of a cell. -/
abbrev Ptr := Nat

namespace Mem

/-- The memory with no variables yet. -/
def empty : Mem α := ⟨[]⟩

/-- Declare a variable: a fresh cell with the initial value; gives its address. -/
def alloc (m : Mem α) (v : α) : Mem α × Ptr := (⟨m.cells ++ [v]⟩, m.cells.length)

/-- Read the cell at address `p` (`*p`, or reading the variable that lives there). -/
def load (m : Mem α) (p : Ptr) : Except Abort α :=
  match m.cells[p]? with
  | some v => .ok v
  | none => .error (.invalidAddress p)

/-- Write the cell at address `p`. -/
def store (m : Mem α) (p : Ptr) (v : α) : Except Abort (Mem α) :=
  if p < m.cells.length then .ok ⟨m.cells.set p v⟩ else .error (.invalidAddress p)

end Mem

/-! ## basics/arrays/array_observations -/

namespace ArrayObservations

/-- What the section "Array is of value type not of reference type" prints:
the three `Println` arguments, in order. -/
structure CopyOutput where
  defaultBefore : GoArray 3
  modified : GoArray 3
  defaultAfter : GoArray 3
  deriving DecidableEq, Repr

/-- Lines 24-30 of `main`, with the initial array, the index and the value left open;
`main` runs it with `[3]int{1, 1, 1}`, index `1` and value `3`. -/
def arrayCopySection (m : Mem (GoArray 3)) (init : GoArray 3) (i v : Int) :
    Except Abort CopyOutput := do
  let (m, arrayDefault) := m.alloc init
  let p1 ← m.load arrayDefault
  let (m, arrayCopy) := m.alloc (← m.load arrayDefault)
  let m ← m.store arrayCopy (← (← m.load arrayCopy).assign i v)
  let p2 ← m.load arrayCopy
  let p3 ← m.load arrayDefault
  return ⟨p1, p2, p3⟩

/-- What the section "copy an array by reference" prints: the four `Println`
arguments, in order. -/
structure AliasOutput where
  arr1Before : GoArray 6
  arr2Before : GoArray 6
  arr1After : GoArray 6
  arr2After : GoArray 6
  deriving DecidableEq, Repr

/-- Lines 42-49 of `main`, with the initial array, the index and the value left open;
`main` runs it with `[6]int{12, 45, 67, 65, 34, 34}`, index `5` and value `44`. -/
def arrayAliasSection (m : Mem (GoArray 6)) (init : GoArray 6) (i v : Int) :
    Except Abort AliasOutput := do
  let (m, my_arr1) := m.alloc init
  let my_arr2 : Ptr := my_arr1
  let p1 ← m.load my_arr1
  let p2 ← m.load my_arr2
  let m ← m.store my_arr1 (← (← m.load my_arr1).assign i v)
  let p3 ← m.load my_arr1
  let p4 ← m.load my_arr2
  return ⟨p1, p2, p3, p4⟩

/-- The three comparisons printed by lines 34-39 of `main`, in order. -/
def arrayCompareSection : Bool × Bool × Bool :=
  let arrayOne : GoArray 7 := GoArray.lit 7 [1, 2]
  let arrayCompare : GoArray 7 := GoArray.lit 7 [1, 2, 3, 4, 5, 6, 8]
  let arrayOneDuplicate : GoArray 7 := GoArray.lit 7 []
  let arrayWithoutSize : GoArray 7 := GoArray.lit 7 [1, 2, 3, 4, 5, 6, 7]
  (arrayCompare.eq arrayOne, arrayOneDuplicate.eq arrayOne, arrayCompare.eq arrayWithoutSize)

end ArrayObservations

/-! ## basics/pointers/pass_by_reference_value -/

namespace PassByReferenceValue

/-- `func PassByReference(insert *int)`: returns the memory after the call and the
(value, address) pairs of its two `Printf` calls. -/
def PassByReference (m : Mem Int) (insert : Ptr) : Except Abort (Mem Int × List (Int × Ptr)) := do
  let p1 := (← m.load insert, insert)
  let m ← m.store insert (wrapInt ((← m.load insert) * 10))
  let p2 := (← m.load insert, insert)
  return (m, [p1, p2])

/-- `func PassByValue(insert string)`: the parameter is a fresh variable of the callee
holding a copy of the argument. Returns the memory after the call and the
(value, address) pairs of its two `Printf` calls. -/
def PassByValue (m : Mem String) (arg : String) : Except Abort (Mem String × List (String × Ptr)) := do
  let (m, insert) := m.alloc arg
  let p1 := (← m.load insert, insert)
  let m ← m.store insert "This string is from PassByValue"
  let p2 := (← m.load insert, insert)
  return (m, [p1, p2])

/-- Lines 7-10 of `main` with the initial value left open (`main` uses `10`):
the (value, address) pairs printed, in order. -/
def mainByReference (m : Mem Int) (init : Int) : Except Abort (List (Int × Ptr)) := do
  let (m, mainDecimalValue) := m.alloc init
  let p1 := (← m.load mainDecimalValue, mainDecimalValue)
  let (m, ps) ← PassByReference m mainDecimalValue
  let p2 := (← m.load mainDecimalValue, mainDecimalValue)
  return [p1] ++ ps ++ [p2]

/-- Lines 13-16 of `main` with the initial value left open (`main` uses
`"This string is from main"`): the (value, address) pairs printed, in order. -/
def mainByValue (m : Mem String) (init : String) : Except Abort (List (String × Ptr)) := do
  let (m, mainSentence) := m.alloc init
  let p1 := (← m.load mainSentence, mainSentence)
  let (m, ps) ← PassByValue m (← m.load mainSentence)
  let p2 := (← m.load mainSentence, mainSentence)
  return [p1] ++ ps ++ [p2]

end PassByReferenceValue

/-! ## basics/pointers/pointer_to_array -/

namespace PointerToArray

/-- The loop of `ModifyArray`, `for i := 0; i < len(array_input); i++`, from the
current `i` on; `len(array_input)` is the constant 5 of the type `*[5]int32`. -/
def ModifyArrayLoop (array_input : Ptr) : Nat → Int → Mem (GoArray 5) → Except Abort (Mem (GoArray 5))
  | 0, _, _ => .error .outOfFuel
  | fuel + 1, i, m =>
    if i < 5 then do
      let x ← (← m.load array_input).index i
      let m ← m.store array_input (← (← m.load array_input).assign i (wrapInt32 (2 * x)))
      ModifyArrayLoop array_input fuel (wrapInt (i + 1)) m
    else .ok m

/-- `func ModifyArray(array_input *[5]int32)`. -/
def ModifyArray (fuel : Nat) (m : Mem (GoArray 5)) (array_input : Ptr) :
    Except Abort (Mem (GoArray 5)) :=
  ModifyArrayLoop array_input fuel 0 m

/-- The loop of `DisplayArray` from the current `i` on: the elements printed. -/
def DisplayArrayLoop (m : Mem (GoArray 5)) (array_input : Ptr) : Nat → Int → List Int → Except Abort (List Int)
  | 0, _, _ => .error .outOfFuel
  | fuel + 1, i, out =>
    if i < 5 then do
      let x ← (← m.load array_input).index i
      DisplayArrayLoop m array_input fuel (wrapInt (i + 1)) (out ++ [x])
    else .ok out

/-- `func DisplayArray(array_input *[5]int32)`: the array printed by the first `Printf`
and the elements printed by the loop. -/
def DisplayArray (fuel : Nat) (m : Mem (GoArray 5)) (array_input : Ptr) :
    Except Abort (GoArray 5 × List Int) := do
  let whole ← m.load array_input
  let each ← DisplayArrayLoop m array_input fuel 0 []
  return (whole, each)

/-- The function `main` with the initial array left open (`main` uses
`[5]int32{1, 2, 3, 4, 5}`): what `DisplayArray` prints and the array printed last. -/
def main (fuel : Nat) (m : Mem (GoArray 5)) (init : GoArray 5) :
    Except Abort ((GoArray 5 × List Int) × GoArray 5) := do
  let (m, a) := m.alloc init
  let pa : Ptr := a
  let m ← ModifyArray fuel m pa
  let shown ← DisplayArray fuel m pa
  return (shown, ← m.load a)

end PointerToArray

/-! ## basics/pointers/pointer_to_structures -/

namespace PointerToStructures

/-- The record `type EdgexServices struct`. -/
structure EdgexServices where
  NameOfService : String
  IsServiceActive : Bool
  deriving DecidableEq, Repr

/-- `func ChangeServiceState(session *EdgexServices)`. -/
def ChangeServiceState (m : Mem EdgexServices) (session : Ptr) :
    Except Abort (Mem EdgexServices) := do
  if (← m.load session).IsServiceActive == true then
    m.store session { (← m.load session) with IsServiceActive := false }
  else
    return m

/-- The function `main` with the initial record left open (`main` uses
`{"Core Data", true}`): the two records printed. -/
def main (m : Mem EdgexServices) (init : EdgexServices) :
    Except Abort (EdgexServices × EdgexServices) := do
  let (m, sessionA) := m.alloc init
  let p1 ← m.load sessionA
  let m ← ChangeServiceState m sessionA
  let p2 ← m.load sessionA
  return (p1, p2)

end PointerToStructures

/-! ## compilation-process/scanner -/

namespace ScannerDemo

/-- A `go/token.Token`: an integer enumeration. -/
abbrev Token := Nat

/-- The end-of-input token `token.EOF`. -/
def EOF : Token := 1

/-- One result of `s.Scan()`: position, token and literal text. -/
structure Scanned where
  pos : Nat
  tok : Token
  lit : String
  deriving DecidableEq, Repr

/-- The scanner of the external library, taken as an arbitrary token stream: the
results of the successive `Scan` calls, and the number of calls made so far. -/
structure Scanner where
  stream : Nat → Scanned
  calls : Nat

/-- One call `s.Scan()`: the next result, and the scanner advanced by one call. -/
def Scanner.Scan (s : Scanner) : Scanned × Scanner :=
  (s.stream s.calls, { s with calls := s.calls + 1 })

/-- The loop `for { pos, tok, lit := s.Scan(); Printf(...); if tok == token.EOF { break } }`
of `main`: the scanner after the loop and the triples printed, in order. -/
def mainLoop : Nat → Scanner → List Scanned → Except Abort (Scanner × List Scanned)
  | 0, _, _ => .error .outOfFuel
  | fuel + 1, s, out =>
    let (t, s) := s.Scan
    let out := out ++ [t]
    if t.tok = EOF then .ok (s, out) else mainLoop fuel s out

/-- A sample token stream: a keyword, an identifier, then EOF for ever. -/
def sampleStream : Nat → Scanned
  | 0 => ⟨1, 78, "package"⟩
  | 1 => ⟨9, 4, "main"⟩
  | _ => ⟨13, EOF, ""⟩

end ScannerDemo

/-! ## basics/arrays/functions_and_arrays -/

namespace FunctionsAndArrays

/-- One line printed by `myfun`. -/
inductive Line where
  | element (k : Int) (value : Int)
  | passed (funcitonArray : GoArray 6)
  deriving DecidableEq, Repr

/-- The loop `for k := 0; k < size; k++` of `myfun` from the current `k` on: the lines
printed so far and either the local array after the loop or the reason the run
stopped. -/
def myfunLoop (array : GoArray 6) (size : Int) :
    Nat → Int → GoArray 6 → List Line → List Line × Except Abort (GoArray 6)
  | 0, _, _, out => (out, .error .outOfFuel)
  | fuel + 1, k, funcitonArray, out =>
    if k < size then
      match array.index k with
      | .error e => (out, .error e)
      | .ok x =>
        match funcitonArray.assign k x with
        | .error e => (out, .error e)
        | .ok funcitonArray =>
          match array.index k with
          | .error e => (out, .error e)
          | .ok y => myfunLoop array size fuel (wrapInt (k + 1)) funcitonArray (out ++ [.element k y])
    else (out, .ok funcitonArray)

/-- `func myfun(array [6]int, size int) int`: the lines printed and the value
returned. -/
def myfun (fuel : Nat) (array : GoArray 6) (size : Int) : List Line × Except Abort Int :=
  match myfunLoop array size fuel 0 (GoArray.lit 6 []) [] with
  | (out, .error e) => (out, .error e)
  | (out, .ok funcitonArray) => (out ++ [.passed funcitonArray], .ok 0)

/-- The function `main`. -/
def main (fuel : Nat) : List Line × Except Abort Int :=
  let arr : GoArray 6 := GoArray.lit 6 [67, 59, 29, 35, 42, 34]
  myfun fuel arr 6

end FunctionsAndArrays


/-! ## Lemmas on machine integers, memory and arrays -/

theorem wrapInt_isInt (z : Int) : IsInt (wrapInt z) := by
  unfold IsInt wrapInt; omega

theorem wrapInt_congr (z : Int) : (wrapInt z - z) % 2 ^ 64 = 0 := by
  unfold wrapInt; omega

theorem wrapInt_succ_small (k : Int) (h0 : 0 ≤ k) (h1 : k ≤ 6) : wrapInt (k + 1) = k + 1 := by
  unfold wrapInt; omega

theorem wrapInt32_isInt32 (z : Int) : IsInt32 (wrapInt32 z) := by
  unfold IsInt32 wrapInt32; omega

theorem wrapInt32_congr (z : Int) : (wrapInt32 z - z) % 2 ^ 32 = 0 := by
  unfold wrapInt32; omega

theorem List.set_getElem_same (l : List α) (p : Nat) (h : p < l.length) :
    l.set p (l.get ⟨p, h⟩) = l := by
  apply List.ext_getElem (by simp)
  intro k h1 h2
  by_cases hk : p = k
  · subst hk; simp
  · simp [List.getElem_set_ne hk]

theorem Mem.load_eq_ok_iff (m : Mem α) (p : Ptr) (v : α) :
    m.load p = .ok v ↔ m.cells[p]? = some v := by
  unfold Mem.load
  cases h : m.cells[p]? <;> simp

theorem Mem.eq_set_of_load (m : Mem α) (p : Ptr) (v : α) (h : m.load p = .ok v) :
    p < m.cells.length ∧ m = ⟨m.cells.set p v⟩ := by
  rw [Mem.load_eq_ok_iff] at h
  obtain ⟨hp, hv⟩ := List.getElem?_eq_some.mp h
  refine ⟨hp, ?_⟩
  cases m with
  | mk cells =>
    simp only at hv hp ⊢
    rw [← hv]
    congr 1
    exact (List.set_getElem_same cells p hp).symm

theorem GoArray.elem_set (a : GoArray n) (i j : Nat) (v : Int) (hi : i < n) :
    GoArray.elem (⟨a.elems.set i v, by simp [a.size_eq]⟩ : GoArray n) j =
      if j = i then v else a.elem j := by
  have hi2 : i < a.elems.length := by rw [a.size_eq]; exact hi
  by_cases hj : j = i
  · subst hj; simp [GoArray.elem, List.getD_eq_getElem?_getD, hi2]
  · simp [GoArray.elem, List.getD_eq_getElem?_getD, hj, List.getElem?_set_ne (Ne.symm hj)]

theorem GoArray.eqFrom_iff (xs ys : List Int) : GoArray.eqFrom xs ys = true ↔ xs = ys := by
  induction xs generalizing ys with
  | nil => cases ys <;> simp [GoArray.eqFrom]
  | cons x xs ih => cases ys <;> simp [GoArray.eqFrom, ih]

/-! ## basics/arrays/array_observations -/

/-- Claim C1: array copy is by value. For every `[3]int` array `a`, every index `i` in
`0..2` and every value `v`, running `c := a; c[i] = v` (with `a` and `c` variables of
any memory) prints `a`, then `c`, then `a` again, where `a` is unchanged and `c` equals
`a` at every index except that `c[i] = v`. -/
theorem arrayCopy_is_by_value (m : Mem (GoArray 3)) (a : GoArray 3) (i v : Int)
    (hlo : 0 ≤ i) (hhi : i < 3) :
    ∃ c : GoArray 3,
      ArrayObservations.arrayCopySection m a i v = .ok ⟨a, c, a⟩ ∧
      ∀ j : Fin 3, c.elem j = if (j : Int) = i then v else a.elem j := by
  have hc : (0 ≤ i ∧ i < ((3 : Nat) : Int)) := ⟨hlo, by simpa using hhi⟩
  refine ⟨⟨a.elems.set i.toNat v, by simp [a.size_eq]⟩, ?_, ?_⟩
  · simp [ArrayObservations.arrayCopySection, GoArray.assign, hc, Mem.alloc, Mem.load,
      Mem.store, bind, Except.bind, pure, Except.pure, hhi, List.getElem_append_right]
  · intro j
    rw [GoArray.elem_set a i.toNat j v (by omega)]
    have : ((j : Nat) = i.toNat) ↔ ((j : Int) = i) := by omega
    simp [this]

/-- The run of `main`: `arrayDefault` stays `[1 1 1]` while `arrayCopy` becomes
`[1 3 1]`. -/
theorem arrayCopy_is_by_value_witness :
    ((0 : Int) ≤ 1 ∧ (1 : Int) < 3) ∧
    (∃ c : GoArray 3,
      ArrayObservations.arrayCopySection Mem.empty (GoArray.lit 3 [1, 1, 1]) 1 3
        = .ok ⟨GoArray.lit 3 [1, 1, 1], c, GoArray.lit 3 [1, 1, 1]⟩ ∧
      ∀ j : Fin 3, c.elem j = if (j : Int) = 1 then 3 else (GoArray.lit 3 [1, 1, 1]).elem j) ∧
    ArrayObservations.arrayCopySection Mem.empty (GoArray.lit 3 [1, 1, 1]) 1 3
      = .ok ⟨GoArray.lit 3 [1, 1, 1], GoArray.lit 3 [1, 3, 1], GoArray.lit 3 [1, 1, 1]⟩ :=
  ⟨⟨by decide, by decide⟩,
    arrayCopy_is_by_value Mem.empty (GoArray.lit 3 [1, 1, 1]) 1 3 (by decide) (by decide),
    rfl⟩

/-- Claim C2: mutation is visible through an alias. For every `[6]int` array `a`, index
`i` in `0..5` and value `v`, with `p := &a`, the array read through `*p` after
`a[i] = v` is the updated `a`: both are the old `a` with position `i` replaced by `v`
(and before the assignment both are the old `a`). -/
theorem arrayAlias_sees_mutation (m : Mem (GoArray 6)) (a : GoArray 6) (i v : Int)
    (hlo : 0 ≤ i) (hhi : i < 6) :
    ∃ c : GoArray 6,
      ArrayObservations.arrayAliasSection m a i v = .ok ⟨a, a, c, c⟩ ∧
      ∀ j : Fin 6, c.elem j = if (j : Int) = i then v else a.elem j := by
  have hc : (0 ≤ i ∧ i < ((6 : Nat) : Int)) := ⟨hlo, by simpa using hhi⟩
  refine ⟨⟨a.elems.set i.toNat v, by simp [a.size_eq]⟩, ?_, ?_⟩
  · simp [ArrayObservations.arrayAliasSection, GoArray.assign, hc, Mem.alloc, Mem.load,
      Mem.store, bind, Except.bind, pure, Except.pure, hhi, List.getElem_append_right]
  · intro j
    rw [GoArray.elem_set a i.toNat j v (by omega)]
    have : ((j : Nat) = i.toNat) ↔ ((j : Int) = i) := by omega
    simp [this]

/-- The run of `main`: after `my_arr1[5] = 44` both `my_arr1` and `*my_arr2` are
`[12 45 67 65 34 44]`. -/
theorem arrayAlias_sees_mutation_witness :
    ((0 : Int) ≤ 5 ∧ (5 : Int) < 6) ∧
    (∃ c : GoArray 6,
      ArrayObservations.arrayAliasSection Mem.empty (GoArray.lit 6 [12, 45, 67, 65, 34, 34]) 5 44
        = .ok ⟨GoArray.lit 6 [12, 45, 67, 65, 34, 34], GoArray.lit 6 [12, 45, 67, 65, 34, 34],
            c, c⟩ ∧
      ∀ j : Fin 6, c.elem j =
        if (j : Int) = 5 then 44 else (GoArray.lit 6 [12, 45, 67, 65, 34, 34]).elem j) ∧
    ArrayObservations.arrayAliasSection Mem.empty (GoArray.lit 6 [12, 45, 67, 65, 34, 34]) 5 44
      = .ok ⟨GoArray.lit 6 [12, 45, 67, 65, 34, 34], GoArray.lit 6 [12, 45, 67, 65, 34, 34],
          GoArray.lit 6 [12, 45, 67, 65, 34, 44], GoArray.lit 6 [12, 45, 67, 65, 34, 44]⟩ :=
  ⟨⟨by decide, by decide⟩,
    arrayAlias_sees_mutation Mem.empty (GoArray.lit 6 [12, 45, 67, 65, 34, 34]) 5 44
      (by decide) (by decide),
    rfl⟩

/-- Claim C5: array equality is pairwise element equality. For every two `[7]int`
arrays, `a == b` is true exactly when `a[i] = b[i]` for every `i` in `0..6`; and the
three comparisons of the demo, `arrayCompare == arrayOne`,
`arrayOneDuplicate == arrayOne` and `arrayCompare == arrayWithoutSize`, are all false,
where `[7]int{1, 2}` is `[1 2 0 0 0 0 0]` and `[7]int{}` is all zero. -/
theorem arrayEq_iff_pairwise (a b : GoArray 7) :
    (a.eq b = true ↔ ∀ i : Fin 7, a.elem i = b.elem i) ∧
    ArrayObservations.arrayCompareSection = (false, false, false) ∧
    (GoArray.lit 7 [1, 2]).elems = [1, 2, 0, 0, 0, 0, 0] ∧
    (GoArray.lit 7 []).elems = [0, 0, 0, 0, 0, 0, 0] := by
  refine ⟨?_, by decide, by decide, by decide⟩
  unfold GoArray.eq
  rw [GoArray.eqFrom_iff]
  constructor
  · intro h i; simp [GoArray.elem, h]
  · intro h
    apply List.ext_getElem (by rw [a.size_eq, b.size_eq])
    intro k h1 h2
    have hk : k < 7 := by rw [a.size_eq] at h1; exact h1
    have := h ⟨k, hk⟩
    simpa [GoArray.elem, List.getD_eq_getElem?_getD, h1, h2] using this

/-! ## basics/pointers/pass_by_reference_value -/

/-- Claim C3: pass-by-value leaves the caller unchanged. For every string `s` held by
the caller's variable (in any memory), `PassByValue(s)` works on a variable of its
own: the memory after the call is the memory before plus that one variable, which
holds "This string is from PassByValue"; and the caller prints `s` before the call and
`s` again after it, at the same address, which differs from the callee's. `main`
prints "This string is from main" before and after. -/
theorem passByValue_caller_unchanged (m : Mem String) (s : String) :
    PassByReferenceValue.PassByValue m s =
      .ok (⟨m.cells ++ ["This string is from PassByValue"]⟩,
        [(s, m.cells.length), ("This string is from PassByValue", m.cells.length)]) ∧
    PassByReferenceValue.mainByValue m s =
      .ok [(s, m.cells.length), (s, m.cells.length + 1),
        ("This string is from PassByValue", m.cells.length + 1), (s, m.cells.length)] ∧
    PassByReferenceValue.mainByValue Mem.empty "This string is from main" =
      .ok [("This string is from main", 0), ("This string is from main", 1),
        ("This string is from PassByValue", 1), ("This string is from main", 0)] := by
  refine ⟨?_, ?_, ?_⟩
  · simp [PassByReferenceValue.PassByValue, Mem.alloc, Mem.load, Mem.store, bind, Except.bind,
      pure, Except.pure, List.getElem_append_right]
  · simp [PassByReferenceValue.mainByValue, PassByReferenceValue.PassByValue, Mem.alloc,
      Mem.load, Mem.store, bind, Except.bind, pure, Except.pure, List.getElem_append_right]
  · simp [PassByReferenceValue.mainByValue, PassByReferenceValue.PassByValue, Mem.alloc,
      Mem.load, Mem.store, Mem.empty, bind, Except.bind, pure, Except.pure]

/-- Claim C4: pass-by-reference mutation is visible to the caller. For every `n` held
by a caller variable `x` (in any memory), the caller prints `n` before
`PassByReference(&x)` and `n * 10` wrapped to 64 bits after it, the callee printing
the same two values at the same address. The wrapped value is an `int` that differs
from `n * 10` by a multiple of `2^64`.
`main` goes from 10 to 100. -/
theorem passByReference_visible (m : Mem Int) (n : Int) :
    PassByReferenceValue.mainByReference m n =
      .ok [(n, m.cells.length), (n, m.cells.length),
        (wrapInt (n * 10), m.cells.length), (wrapInt (n * 10), m.cells.length)] ∧
    IsInt (wrapInt (n * 10)) ∧ (wrapInt (n * 10) - n * 10) % 2 ^ 64 = 0 ∧
    PassByReferenceValue.mainByReference Mem.empty 10 = .ok [(10, 0), (10, 0), (100, 0), (100, 0)] := by
  refine ⟨?_, wrapInt_isInt _, wrapInt_congr _, by rfl⟩
  simp [PassByReferenceValue.mainByReference, PassByReferenceValue.PassByReference, Mem.alloc,
    Mem.load, Mem.store, bind, Except.bind, pure, Except.pure, List.getElem_append_right]

/-! ## basics/pointers/pointer_to_array -/

theorem ModifyArrayLoop_step (p : Ptr) (fuel : Nat) (i i' : Int) (cells : List (GoArray 5))
    (xs : List Int) (hxs : xs.length = 5) (hp : p < cells.length) (h0 : 0 ≤ i) (h5 : i < 5)
    (hi : i' = i + 1) :
    PointerToArray.ModifyArrayLoop p (fuel + 1) i ⟨cells.set p ⟨xs, hxs⟩⟩ =
      PointerToArray.ModifyArrayLoop p fuel i'
        ⟨cells.set p ⟨xs.set i.toNat (wrapInt32 (2 * xs.getD i.toNat 0)), by simp [hxs]⟩⟩ := by
  subst hi
  have hw : wrapInt (i + 1) = i + 1 := wrapInt_succ_small i h0 (by omega)
  rw [PointerToArray.ModifyArrayLoop]
  simp [h0, h5, Mem.load, GoArray.index, GoArray.assign, Mem.store, hp, hw, bind, Except.bind,
    List.set_set, GoArray.elem]

/-- Claim C6: `ModifyArray` doubles every element in place through the pointer. For
every `[5]int32` array `a` held by a variable at address `p` of any memory, and an
iteration budget of at least 6, `ModifyArray(p)` returns, the memory after the call is
the memory before with the variable at `p` (the caller's array) replaced by an array
`b`, and `b[i]` is `2 * a[i]` wrapped to 32 bits for every `i` in `0..4`: an `int32`
that differs from `2 * a[i]` by a multiple of `2^32`. -/
theorem ModifyArray_doubles (fuel : Nat) (m : Mem (GoArray 5)) (p : Ptr) (a : GoArray 5)
    (hload : m.load p = .ok a) (hfuel : 6 ≤ fuel) :
    ∃ b : GoArray 5,
      PointerToArray.ModifyArray fuel m p = .ok ⟨m.cells.set p b⟩ ∧
      Mem.load ⟨m.cells.set p b⟩ p = .ok b ∧
      ∀ i : Fin 5, b.elem i = wrapInt32 (2 * a.elem i) ∧
        IsInt32 (b.elem i) ∧ (b.elem i - 2 * a.elem i) % 2 ^ 32 = 0 := by
  obtain ⟨f, rfl⟩ : ∃ f, fuel = f + 6 := ⟨fuel - 6, by omega⟩
  obtain ⟨hp, hm⟩ := Mem.eq_set_of_load m p a hload
  obtain ⟨elems, hsz⟩ := a
  match elems, hsz with
  | [x0, x1, x2, x3, x4], hsz =>
    refine ⟨⟨[wrapInt32 (2 * x0), wrapInt32 (2 * x1), wrapInt32 (2 * x2), wrapInt32 (2 * x3),
      wrapInt32 (2 * x4)], rfl⟩, ?_, ?_, ?_⟩
    · unfold PointerToArray.ModifyArray
      conv => lhs; rw [hm]
      rw [ModifyArrayLoop_step p _ 0 1 m.cells _ _ hp (by decide) (by decide) rfl]
      rw [ModifyArrayLoop_step p _ 1 2 m.cells _ _ hp (by decide) (by decide) rfl]
      rw [ModifyArrayLoop_step p _ 2 3 m.cells _ _ hp (by decide) (by decide) rfl]
      rw [ModifyArrayLoop_step p _ 3 4 m.cells _ _ hp (by decide) (by decide) rfl]
      rw [ModifyArrayLoop_step p _ 4 5 m.cells _ _ hp (by decide) (by decide) rfl]
      rw [PointerToArray.ModifyArrayLoop]
      simp
    · simp [Mem.load, hp]
    · intro i
      fin_cases i <;>
        exact ⟨by simp [GoArray.elem], by simpa [GoArray.elem] using wrapInt32_isInt32 _,
          by simpa [GoArray.elem] using wrapInt32_congr _⟩

/-- The run of `main`: `a = [1 2 3 4 5]` becomes `[2 4 6 8 10]`, which is what
`DisplayArray` shows through the pointer and what `main` prints for `a`. -/
theorem ModifyArray_doubles_witness :
    (Mem.load ⟨[GoArray.lit 5 [1, 2, 3, 4, 5]]⟩ 0 = .ok (GoArray.lit 5 [1, 2, 3, 4, 5]) ∧ 6 ≤ 6) ∧
    (∃ b : GoArray 5,
      PointerToArray.ModifyArray 6 ⟨[GoArray.lit 5 [1, 2, 3, 4, 5]]⟩ 0 =
        .ok ⟨[GoArray.lit 5 [1, 2, 3, 4, 5]].set 0 b⟩ ∧
      Mem.load ⟨[GoArray.lit 5 [1, 2, 3, 4, 5]].set 0 b⟩ 0 = .ok b ∧
      ∀ i : Fin 5, b.elem i = wrapInt32 (2 * (GoArray.lit 5 [1, 2, 3, 4, 5]).elem i) ∧
        IsInt32 (b.elem i) ∧ (b.elem i - 2 * (GoArray.lit 5 [1, 2, 3, 4, 5]).elem i) % 2 ^ 32 = 0) ∧
    PointerToArray.main 6 Mem.empty (GoArray.lit 5 [1, 2, 3, 4, 5]) =
      .ok ((GoArray.lit 5 [2, 4, 6, 8, 10], [2, 4, 6, 8, 10]), GoArray.lit 5 [2, 4, 6, 8, 10]) :=
  ⟨⟨rfl, by decide⟩,
    ModifyArray_doubles 6 ⟨[GoArray.lit 5 [1, 2, 3, 4, 5]]⟩ 0 (GoArray.lit 5 [1, 2, 3, 4, 5]) rfl
      (by decide),
    rfl⟩

/-! ## basics/pointers/pointer_to_structures -/

/-- Claim C7: `ChangeServiceState` only ever deactivates. For every `EdgexServices`
value `s` held by a variable at address `p` of any memory, `ChangeServiceState(p)`
returns, the memory after the call is the memory before with the variable at `p`
holding the same `NameOfService` and `IsServiceActive = false` (whether it was true or
false before), and a second call leaves that memory as it is. -/
theorem changeServiceState_deactivates (m : Mem PointerToStructures.EdgexServices) (p : Ptr)
    (s : PointerToStructures.EdgexServices) (hload : m.load p = .ok s) :
    ∃ m' : Mem PointerToStructures.EdgexServices,
      PointerToStructures.ChangeServiceState m p = .ok m' ∧
      m'.cells = m.cells.set p ⟨s.NameOfService, false⟩ ∧
      m'.load p = .ok ⟨s.NameOfService, false⟩ ∧
      PointerToStructures.ChangeServiceState m' p = .ok m' := by
  obtain ⟨hp, hm⟩ := Mem.eq_set_of_load m p s hload
  obtain ⟨cells⟩ := m
  obtain ⟨name, active⟩ := s
  simp only at hp
  cases active
  · refine ⟨⟨cells⟩, ?_, ?_, hload, ?_⟩
    · simp [PointerToStructures.ChangeServiceState, hload, bind, Except.bind, pure, Except.pure]
    · exact Mem.mk.inj hm
    · simp [PointerToStructures.ChangeServiceState, hload, bind, Except.bind, pure, Except.pure]
  · refine ⟨⟨cells.set p ⟨name, false⟩⟩, ?_, rfl, ?_, ?_⟩
    · simp [PointerToStructures.ChangeServiceState, hload, bind, Except.bind, Mem.store, hp]
    · simp [Mem.load, hp]
    · simp [PointerToStructures.ChangeServiceState, Mem.load, hp, bind, Except.bind, pure,
        Except.pure]

/-- The run of `main`: the record "Core Data", true becomes "Core Data", false. -/
theorem changeServiceState_deactivates_witness :
    Mem.load ⟨[(⟨"Core Data", true⟩ : PointerToStructures.EdgexServices)]⟩ 0
      = .ok ⟨"Core Data", true⟩ ∧
    (∃ m' : Mem PointerToStructures.EdgexServices,
      PointerToStructures.ChangeServiceState ⟨[⟨"Core Data", true⟩]⟩ 0 = .ok m' ∧
      m'.cells = [(⟨"Core Data", true⟩ : PointerToStructures.EdgexServices)].set 0
        ⟨"Core Data", false⟩ ∧
      m'.load 0 = .ok ⟨"Core Data", false⟩ ∧
      PointerToStructures.ChangeServiceState m' 0 = .ok m') ∧
    PointerToStructures.main Mem.empty ⟨"Core Data", true⟩ =
      .ok (⟨"Core Data", true⟩, ⟨"Core Data", false⟩) :=
  ⟨rfl, changeServiceState_deactivates ⟨[⟨"Core Data", true⟩]⟩ 0 ⟨"Core Data", true⟩ rfl, rfl⟩

/-! ## compilation-process/scanner -/

theorem mainLoop_from (stream : Nat → ScannerDemo.Scanned) (n fuel c : Nat)
    (out : List ScannerDemo.Scanned)
    (heof : (stream (c + n)).tok = ScannerDemo.EOF)
    (hfirst : ∀ k, k < n → (stream (c + k)).tok ≠ ScannerDemo.EOF)
    (hfuel : n + 1 ≤ fuel) :
    ScannerDemo.mainLoop fuel ⟨stream, c⟩ out =
      .ok (⟨stream, c + n + 1⟩, out ++ (List.range (n + 1)).map (fun k => stream (c + k))) := by
  induction n generalizing fuel c out with
  | zero =>
    obtain ⟨f, rfl⟩ : ∃ f, fuel = f + 1 := ⟨fuel - 1, by omega⟩
    simp at heof
    simp [ScannerDemo.mainLoop, ScannerDemo.Scanner.Scan, heof, List.range_succ]
  | succ n ih =>
    obtain ⟨f, rfl⟩ : ∃ f, fuel = f + 1 := ⟨fuel - 1, by omega⟩
    have h0 : (stream c).tok ≠ ScannerDemo.EOF := by simpa using hfirst 0 (by omega)
    have := ih f (c + 1) (out ++ [stream c]) (by rw [← heof]; congr 2; omega)
      (fun k hk => by have := hfirst (k + 1) (by omega); rwa [show c + 1 + k = c + (k + 1) by omega])
      (by omega)
    simp only [ScannerDemo.mainLoop, ScannerDemo.Scanner.Scan, h0, if_false]
    rw [this]
    have hr : List.range (n + 1 + 1) = 0 :: (List.range (n + 1)).map Nat.succ := by
      rw [List.range_succ_eq_map]
    rw [hr]
    simp [List.map_map, Function.comp, Nat.add_assoc, Nat.add_comm 1]

theorem countP_eof_range (stream : Nat → ScannerDemo.Scanned) (n : Nat)
    (heof : (stream n).tok = ScannerDemo.EOF)
    (hfirst : ∀ k, k < n → (stream k).tok ≠ ScannerDemo.EOF) :
    (((List.range (n + 1)).map stream).filter (fun t => t.tok = ScannerDemo.EOF)).length = 1 := by
  have h0 : ((List.range n).map stream).filter (fun t => decide (t.tok = ScannerDemo.EOF)) = [] := by
    rw [List.filter_eq_nil_iff]
    intro t ht
    obtain ⟨k, hk, rfl⟩ := List.mem_map.mp ht
    simpa using hfirst k (List.mem_range.mp hk)
  rw [List.range_succ, List.map_append, List.filter_append, h0]
  simp [heof]

/-- Claim C8: the scanner loop prints tokens up to and including the end-of-input
marker and then stops. With `s.Scan()` an arbitrary token stream whose first EOF token
is at position `n`, and an iteration budget of at least `n + 1`, the loop returns
after exactly `n + 1` `Scan` calls and has printed exactly the first `n + 1` triples
of the stream in order: `n + 1` lines, of which exactly one has the EOF token, and
that one is the last line. -/
theorem scannerLoop_stops_at_eof (stream : Nat → ScannerDemo.Scanned) (n fuel : Nat)
    (heof : (stream n).tok = ScannerDemo.EOF)
    (hfirst : ∀ k, k < n → (stream k).tok ≠ ScannerDemo.EOF)
    (hfuel : n + 1 ≤ fuel) :
    ∃ (s' : ScannerDemo.Scanner) (printed : List ScannerDemo.Scanned),
      ScannerDemo.mainLoop fuel ⟨stream, 0⟩ [] = .ok (s', printed) ∧
      s'.calls = n + 1 ∧
      printed = (List.range (n + 1)).map stream ∧
      printed.length = n + 1 ∧
      (printed.filter (fun t => t.tok = ScannerDemo.EOF)).length = 1 ∧
      printed.getLast? = some (stream n) := by
  refine ⟨⟨stream, n + 1⟩, (List.range (n + 1)).map stream, ?_, rfl, rfl, by simp,
    countP_eof_range stream n heof hfirst, ?_⟩
  · have h := mainLoop_from stream n fuel 0 [] (by simpa using heof)
      (fun k hk => by simpa using hfirst k hk) hfuel
    simpa using h
  · simp [List.range_succ]

/-- A run of the loop on a stream whose first EOF is at position 2: three `Scan`
calls and three lines. -/
theorem scannerLoop_stops_at_eof_witness :
    ((ScannerDemo.sampleStream 2).tok = ScannerDemo.EOF ∧
      (∀ k, k < 2 → (ScannerDemo.sampleStream k).tok ≠ ScannerDemo.EOF) ∧ 2 + 1 ≤ 5) ∧
    (∃ (s' : ScannerDemo.Scanner) (printed : List ScannerDemo.Scanned),
      ScannerDemo.mainLoop 5 ⟨ScannerDemo.sampleStream, 0⟩ [] = .ok (s', printed) ∧
      s'.calls = 2 + 1 ∧
      printed = (List.range (2 + 1)).map ScannerDemo.sampleStream ∧
      printed.length = 2 + 1 ∧
      (printed.filter (fun t => t.tok = ScannerDemo.EOF)).length = 1 ∧
      printed.getLast? = some (ScannerDemo.sampleStream 2)) ∧
    (ScannerDemo.mainLoop 5 ⟨ScannerDemo.sampleStream, 0⟩ []).toOption.map Prod.snd =
      some [⟨1, 78, "package"⟩, ⟨9, 4, "main"⟩, ⟨13, ScannerDemo.EOF, ""⟩] :=
  ⟨⟨rfl, by decide, by decide⟩,
    scannerLoop_stops_at_eof ScannerDemo.sampleStream 2 5 rfl (by decide) (by decide),
    rfl⟩

/-! ## basics/arrays/functions_and_arrays -/

theorem myfunLoop_step (array : GoArray 6) (size : Int) (fuel : Nat) (k k' : Int)
    (xs : List Int) (hxs : xs.length = 6) (out : List FunctionsAndArrays.Line)
    (h0 : 0 ≤ k) (h6 : k < 6) (hk : k < size) (hk' : k' = k + 1) :
    FunctionsAndArrays.myfunLoop array size (fuel + 1) k ⟨xs, hxs⟩ out =
      FunctionsAndArrays.myfunLoop array size fuel k'
        ⟨xs.set k.toNat (array.elem k.toNat), by simp [hxs]⟩
        (out ++ [.element k (array.elem k.toNat)]) := by
  subst hk'
  rw [FunctionsAndArrays.myfunLoop]
  simp [hk, h0, h6, GoArray.index, GoArray.assign, wrapInt_succ_small k h0 (by omega)]

theorem myfunLoop_exit (array : GoArray 6) (size : Int) (fuel : Nat) (k : Int)
    (fa : GoArray 6) (out : List FunctionsAndArrays.Line) (hk : ¬ k < size) :
    FunctionsAndArrays.myfunLoop array size (fuel + 1) k fa out = (out, .ok fa) := by
  rw [FunctionsAndArrays.myfunLoop]; simp [hk]

theorem myfunLoop_fails (array : GoArray 6) (size : Int) (fuel : Nat)
    (fa : GoArray 6) (out : List FunctionsAndArrays.Line) (hk : 6 < size) :
    FunctionsAndArrays.myfunLoop array size (fuel + 1) 6 fa out =
      (out, .error (.indexOutOfRange 6 6)) := by
  rw [FunctionsAndArrays.myfunLoop]; simp [hk, GoArray.index]

theorem myfun_in_range (fuel : Nat) (array : GoArray 6) (size : Int)
    (hlo : 0 ≤ size) (hhi : size ≤ 6) (hfuel : 7 ≤ fuel) :
    ∃ fa : GoArray 6,
      FunctionsAndArrays.myfun fuel array size =
        ((List.range size.toNat).map
            (fun k : Nat => FunctionsAndArrays.Line.element (k : Int) (array.elem k))
          ++ [.passed fa], .ok 0) ∧
      ∀ j : Fin 6, fa.elem j = if (j : Int) < size then array.elem j else 0 := by
  obtain ⟨f, rfl⟩ : ∃ f, fuel = f + 7 := ⟨fuel - 7, by omega⟩
  obtain ⟨elems, hsz⟩ := array
  match elems, hsz with
  | [x0, x1, x2, x3, x4, x5], hsz =>
    interval_cases size
    · refine ⟨GoArray.lit 6 [], ?_, ?_⟩
      · unfold FunctionsAndArrays.myfun GoArray.lit
        rw [myfunLoop_exit _ _ _ _ _ _ (by decide)]
        simp [GoArray.elem, List.range_succ]
      · intro j; fin_cases j <;> simp [GoArray.elem, GoArray.lit]
    · refine ⟨GoArray.lit 6 [x0], ?_, ?_⟩
      · unfold FunctionsAndArrays.myfun GoArray.lit
        rw [myfunLoop_step _ _ _ 0 1 _ _ _ (by decide) (by decide) (by decide) rfl]
        rw [myfunLoop_exit _ _ _ _ _ _ (by decide)]
        simp [GoArray.elem, List.range_succ]
      · intro j; fin_cases j <;> simp [GoArray.elem, GoArray.lit]
    · refine ⟨GoArray.lit 6 [x0, x1], ?_, ?_⟩
      · unfold FunctionsAndArrays.myfun GoArray.lit
        rw [myfunLoop_step _ _ _ 0 1 _ _ _ (by decide) (by decide) (by decide) rfl]
        rw [myfunLoop_step _ _ _ 1 2 _ _ _ (by decide) (by decide) (by decide) rfl]
        rw [myfunLoop_exit _ _ _ _ _ _ (by decide)]
        simp [GoArray.elem, List.range_succ]
      · intro j; fin_cases j <;> simp [GoArray.elem, GoArray.lit]
    · refine ⟨GoArray.lit 6 [x0, x1, x2], ?_, ?_⟩
      · unfold FunctionsAndArrays.myfun GoArray.lit
        rw [myfunLoop_step _ _ _ 0 1 _ _ _ (by decide) (by decide) (by decide) rfl]
        rw [myfunLoop_step _ _ _ 1 2 _ _ _ (by decide) (by decide) (by decide) rfl]
        rw [myfunLoop_step _ _ _ 2 3 _ _ _ (by decide) (by decide) (by decide) rfl]
        rw [myfunLoop_exit _ _ _ _ _ _ (by decide)]
        simp [GoArray.elem, List.range_succ]
      · intro j; fin_cases j <;> simp [GoArray.elem, GoArray.lit]
    · refine ⟨GoArray.lit 6 [x0, x1, x2, x3], ?_, ?_⟩
      · unfold FunctionsAndArrays.myfun GoArray.lit
        rw [myfunLoop_step _ _ _ 0 1 _ _ _ (by decide) (by decide) (by decide) rfl]
        rw [myfunLoop_step _ _ _ 1 2 _ _ _ (by decide) (by decide) (by decide) rfl]
        rw [myfunLoop_step _ _ _ 2 3 _ _ _ (by decide) (by decide) (by decide) rfl]
        rw [myfunLoop_step _ _ _ 3 4 _ _ _ (by decide) (by decide) (by decide) rfl]
        rw [myfunLoop_exit _ _ _ _ _ _ (by decide)]
        simp [GoArray.elem, List.range_succ]
      · intro j; fin_cases j <;> simp [GoArray.elem, GoArray.lit]
    · refine ⟨GoArray.lit 6 [x0, x1, x2, x3, x4], ?_, ?_⟩
      · unfold FunctionsAndArrays.myfun GoArray.lit
        rw [myfunLoop_step _ _ _ 0 1 _ _ _ (by decide) (by decide) (by decide) rfl]
        rw [myfunLoop_step _ _ _ 1 2 _ _ _ (by decide) (by decide) (by decide) rfl]
        rw [myfunLoop_step _ _ _ 2 3 _ _ _ (by decide) (by decide) (by decide) rfl]
        rw [myfunLoop_step _ _ _ 3 4 _ _ _ (by decide) (by decide) (by decide) rfl]
        rw [myfunLoop_step _ _ _ 4 5 _ _ _ (by decide) (by decide) (by decide) rfl]
        rw [myfunLoop_exit _ _ _ _ _ _ (by decide)]
        simp [GoArray.elem, List.range_succ]
      · intro j; fin_cases j <;> simp [GoArray.elem, GoArray.lit]
    · refine ⟨GoArray.lit 6 [x0, x1, x2, x3, x4, x5], ?_, ?_⟩
      · unfold FunctionsAndArrays.myfun GoArray.lit
        rw [myfunLoop_step _ _ _ 0 1 _ _ _ (by decide) (by decide) (by decide) rfl]
        rw [myfunLoop_step _ _ _ 1 2 _ _ _ (by decide) (by decide) (by decide) rfl]
        rw [myfunLoop_step _ _ _ 2 3 _ _ _ (by decide) (by decide) (by decide) rfl]
        rw [myfunLoop_step _ _ _ 3 4 _ _ _ (by decide) (by decide) (by decide) rfl]
        rw [myfunLoop_step _ _ _ 4 5 _ _ _ (by decide) (by decide) (by decide) rfl]
        rw [myfunLoop_step _ _ _ 5 6 _ _ _ (by decide) (by decide) (by decide) rfl]
        rw [myfunLoop_exit _ _ _ _ _ _ (by decide)]
        simp [GoArray.elem, List.range_succ]
      · intro j; fin_cases j <;> simp [GoArray.elem, GoArray.lit]

theorem myfun_nonpos (fuel : Nat) (array : GoArray 6) (size : Int)
    (hhi : size ≤ 0) (hfuel : 1 ≤ fuel) :
    FunctionsAndArrays.myfun fuel array size = ([.passed (GoArray.lit 6 [])], .ok 0) := by
  obtain ⟨f, rfl⟩ : ∃ f, fuel = f + 1 := ⟨fuel - 1, by omega⟩
  unfold FunctionsAndArrays.myfun
  rw [myfunLoop_exit _ _ _ _ _ _ (by omega)]
  simp

theorem myfun_too_large (fuel : Nat) (array : GoArray 6) (size : Int)
    (hsize : 6 < size) (hfuel : 7 ≤ fuel) :
    FunctionsAndArrays.myfun fuel array size =
        ((List.range 6).map
            (fun k : Nat => FunctionsAndArrays.Line.element (k : Int) (array.elem k)),
          .error (.indexOutOfRange 6 6)) := by
  obtain ⟨f, rfl⟩ : ∃ f, fuel = f + 7 := ⟨fuel - 7, by omega⟩
  unfold FunctionsAndArrays.myfun GoArray.lit
  rw [myfunLoop_step _ _ _ 0 1 _ _ _ (by decide) (by decide) (by omega) rfl]
  rw [myfunLoop_step _ _ _ 1 2 _ _ _ (by decide) (by decide) (by omega) rfl]
  rw [myfunLoop_step _ _ _ 2 3 _ _ _ (by decide) (by decide) (by omega) rfl]
  rw [myfunLoop_step _ _ _ 3 4 _ _ _ (by decide) (by decide) (by omega) rfl]
  rw [myfunLoop_step _ _ _ 4 5 _ _ _ (by decide) (by decide) (by omega) rfl]
  rw [myfunLoop_step _ _ _ 5 6 _ _ _ (by decide) (by decide) (by omega) rfl]
  rw [myfunLoop_fails _ _ _ _ _ hsize]
  simp [List.range_succ]

/-- Claim C9: `myfun` copies a prefix of its argument. For every `[6]int` array and
every `size` with `0 <= size <= 6`, and an iteration budget of at least 7,
`myfun(array, size)` returns 0 with no index out of range, prints one line for each
`k < size` with `array[k]`, and then prints its local array, whose first `size`
elements are those of `array` and whose remaining elements are 0; with `size = 6` the
printed array is the array passed. -/
theorem myfun_copies_first_elements (fuel : Nat) (array : GoArray 6) (size : Int)
    (hlo : 0 ≤ size) (hhi : size ≤ 6) (hfuel : 7 ≤ fuel) :
    ∃ fa : GoArray 6,
      FunctionsAndArrays.myfun fuel array size =
        ((List.range size.toNat).map
            (fun k : Nat => FunctionsAndArrays.Line.element (k : Int) (array.elem k))
          ++ [.passed fa], .ok 0) ∧
      (∀ j : Fin 6, fa.elem j = if (j : Int) < size then array.elem j else 0) ∧
      (size = 6 → fa = array) := by
  obtain ⟨fa, hrun, helem⟩ := myfun_in_range fuel array size hlo hhi hfuel
  refine ⟨fa, hrun, helem, ?_⟩
  intro h6
  subst h6
  obtain ⟨xs, hxs⟩ := fa
  obtain ⟨ys, hys⟩ := array
  congr 1
  apply List.ext_getElem (by rw [hxs, hys])
  intro k h1 h2
  have hk : k < 6 := by rw [hxs] at h1; exact h1
  have := helem ⟨k, hk⟩
  have hlt : (k : Int) < 6 := by omega
  simpa [GoArray.elem, List.getD_eq_getElem?_getD, h1, h2, hlt] using this

/-- The run of `main`: `myfun([67 59 29 35 42 34], 6)` prints the six elements, then
`[67 59 29 35 42 34]`, and returns 0. -/
theorem myfun_copies_first_elements_witness :
    ((0 : Int) ≤ 6 ∧ (6 : Int) ≤ 6 ∧ 7 ≤ 7) ∧
    (∃ fa : GoArray 6,
      FunctionsAndArrays.myfun 7 (GoArray.lit 6 [67, 59, 29, 35, 42, 34]) 6 =
        ((List.range (6 : Int).toNat).map
            (fun k : Nat => FunctionsAndArrays.Line.element (k : Int)
              ((GoArray.lit 6 [67, 59, 29, 35, 42, 34]).elem k))
          ++ [.passed fa], .ok 0) ∧
      (∀ j : Fin 6, fa.elem j =
        if (j : Int) < 6 then (GoArray.lit 6 [67, 59, 29, 35, 42, 34]).elem j else 0) ∧
      ((6 : Int) = 6 → fa = GoArray.lit 6 [67, 59, 29, 35, 42, 34])) ∧
    FunctionsAndArrays.main 7 =
      ([.element 0 67, .element 1 59, .element 2 29, .element 3 35, .element 4 42,
        .element 5 34, .passed (GoArray.lit 6 [67, 59, 29, 35, 42, 34])], .ok 0) :=
  ⟨⟨by decide, by decide, by decide⟩,
    myfun_copies_first_elements 7 (GoArray.lit 6 [67, 59, 29, 35, 42, 34]) 6 (by decide) (by decide)
      (by decide),
    rfl⟩

/-- Claim C10: `myfun` does not validate its size argument. For every `[6]int` array
and every `size`, with an iteration budget of at least 7, `myfun(array, size)` fails
with an index-out-of-range error exactly when `size > 6`; the failure is then at index
6 of an array of length 6, after the six lines for `k = 0..5` were printed (so after
the first six elements were copied); and for every `size <= 6`, zero and negative
sizes included, it returns 0. -/
theorem myfun_fails_iff_size_gt_six (fuel : Nat) (array : GoArray 6) (size : Int)
    (hfuel : 7 ≤ fuel) :
    ((∃ index len, (FunctionsAndArrays.myfun fuel array size).2 =
        .error (.indexOutOfRange index len)) ↔ 6 < size) ∧
    (6 < size → FunctionsAndArrays.myfun fuel array size =
        ((List.range 6).map
            (fun k : Nat => FunctionsAndArrays.Line.element (k : Int) (array.elem k)),
          .error (.indexOutOfRange 6 6))) ∧
    (size ≤ 6 → (FunctionsAndArrays.myfun fuel array size).2 = .ok 0) := by
  have hsmall : size ≤ 6 → (FunctionsAndArrays.myfun fuel array size).2 = .ok 0 := by
    intro hle
    by_cases h0 : 0 ≤ size
    · obtain ⟨fa, hrun, _⟩ := myfun_in_range fuel array size h0 hle hfuel
      rw [hrun]
    · rw [myfun_nonpos fuel array size (by omega) (by omega)]
  refine ⟨⟨?_, ?_⟩, fun h => myfun_too_large fuel array size h hfuel, hsmall⟩
  · rintro ⟨index, len, herr⟩
    by_contra hle
    rw [hsmall (by omega)] at herr
    cases herr
  · intro hgt
    exact ⟨6, 6, by rw [myfun_too_large fuel array size hgt hfuel]⟩

/-- Runs with sizes 7, 0 and -3 on the array of `main`: the first fails at index 6
after six lines, the other two return 0. -/
theorem myfun_fails_iff_size_gt_six_witness :
    (7 ≤ 7) ∧
    (((∃ index len, (FunctionsAndArrays.myfun 7 (GoArray.lit 6 [67, 59, 29, 35, 42, 34]) 7).2 =
        .error (.indexOutOfRange index len)) ↔ (6 : Int) < 7) ∧
    ((6 : Int) < 7 → FunctionsAndArrays.myfun 7 (GoArray.lit 6 [67, 59, 29, 35, 42, 34]) 7 =
        ((List.range 6).map
            (fun k : Nat => FunctionsAndArrays.Line.element (k : Int)
              ((GoArray.lit 6 [67, 59, 29, 35, 42, 34]).elem k)),
          .error (.indexOutOfRange 6 6))) ∧
    ((7 : Int) ≤ 6 →
      (FunctionsAndArrays.myfun 7 (GoArray.lit 6 [67, 59, 29, 35, 42, 34]) 7).2 = .ok 0)) ∧
    FunctionsAndArrays.myfun 7 (GoArray.lit 6 [67, 59, 29, 35, 42, 34]) 7 =
      ([.element 0 67, .element 1 59, .element 2 29, .element 3 35, .element 4 42,
        .element 5 34], .error (.indexOutOfRange 6 6)) ∧
    FunctionsAndArrays.myfun 7 (GoArray.lit 6 [67, 59, 29, 35, 42, 34]) 0 =
      ([.passed (GoArray.lit 6 [])], .ok 0) ∧
    FunctionsAndArrays.myfun 7 (GoArray.lit 6 [67, 59, 29, 35, 42, 34]) (-3) =
      ([.passed (GoArray.lit 6 [])], .ok 0) :=
  ⟨by decide,
    myfun_fails_iff_size_gt_six 7 (GoArray.lit 6 [67, 59, 29, 35, 42, 34]) 7 (by decide),
    rfl, rfl, rfl⟩

end GoLang
